import Mathlib

/-!
Shallow embedding of the Mascotas-Node social-network backend: the post,
user (identity and social graph) and profile services, together with the
Mongoose document methods they invoke.  Documents are plain records, the
document store is a record of lists, ids are naturals, timestamps are
naturals (values of Date.now passed explicitly), and every fallible
service returns an Except value: a rejected promise maps to error, a
resolved one to ok together with the updated store.
-/

/-- The kinds of rejection that appear in the embedded services: a
not-found error, a field-level validation error carrying (path, message)
pairs, a domain-rule rejection object carrying (failAt, message), and a
TypeError raised by accessing the named property of a null document. -/
inductive Err where
  | notFound (msg : String)
  | validation (messages : List (String × String))
  | domainRule (failAt : String) (msg : String)
  | nullAccess (field : String)
  deriving Repr, DecidableEq

/-- A post document (post/schema.ts): title, description, picture
reference, liking-user ids, denormalized like counter, tagged pets,
owning user, updated/created timestamps and the soft-delete flag. -/
structure Post where
  id : Nat
  title : String
  description : String
  picture : String
  likes : List Nat
  likesQuantity : Int
  pets : List Nat
  user : Nat
  updated : Nat
  created : Nat
  enabled : Bool
  deriving Repr, DecidableEq

/-- A user document (spec section 3): unique id, name, login, permission
strings, enabled flag and the ordered list of followed user ids. -/
structure MUser where
  id : Nat
  name : String
  login : String
  permissions : List String
  enabled : Bool
  following : List Nat
  deriving Repr, DecidableEq

/-- A profile document (spec section 3): display name, phone, email,
address, optional province reference, picture reference, enabled flag,
and the back-reference to its user. -/
structure Profile where
  id : Nat
  user : Nat
  name : String
  phone : String
  email : String
  address : String
  province : Option Nat
  picture : String
  enabled : Bool
  deriving Repr, DecidableEq

/-- The document store: the users, posts and profiles collections plus
the province reference data (only ids are relevant here). -/
structure Store where
  users : List MUser
  posts : List Post
  provinces : List Nat
  profiles : List Profile
  deriving Repr, DecidableEq

/-- Post.findOne with filter on id and enabled, as used by the part_003
post service (like, dislike). -/
def findPostEnabled (s : Store) (postId : Nat) : Option Post :=
  s.posts.find? (fun p => p.id == postId && p.enabled)

/-- Post.findOne with filter on id only, as used by src/src/post/service.ts. -/
def findPostById (s : Store) (postId : Nat) : Option Post :=
  s.posts.find? (fun p => p.id == postId)

/-- Post.findOne with filter on id, owner and enabled, as used by the
part_003 deletePost. -/
def findPostOwnedEnabled (s : Store) (userId postId : Nat) : Option Post :=
  s.posts.find? (fun p => p.id == postId && p.user == userId && p.enabled)

/-- Saving a fetched post document writes it back over every stored
document with the same id. -/
def savePost (s : Store) (p : Post) : Store :=
  { s with posts := s.posts.map (fun q => if q.id == p.id then p else q) }

/-- User.findOne on id only (no enabled filter), as used by the follow,
unfollow, getFollowing, grant and revoke services. -/
def findUser (s : Store) (userId : Nat) : Option MUser :=
  s.users.find? (fun u => u.id == userId)

/-- Saving a fetched user document writes it back over every stored
document with the same id. -/
def saveUser (s : Store) (u : MUser) : Store :=
  { s with users := s.users.map (fun v => if v.id == u.id then u else v) }

/-- Modelled from the spec: provinces.read (the province service is not
under src) resolves a province id to its record, yielding nothing when no
such province record exists. -/
def provincesRead (provs : List Nat) (provinceId : Nat) : Option Nat :=
  if provs.contains provinceId then some provinceId else none

/-- Runs one service call for its state effect only: a resolved call
yields the updated store, a rejected call leaves the store untouched
(the services reject before any save). -/
def runStep {α : Type} (s : Store) (r : Except Err (Store × α)) : Store :=
  match r with
  | .ok (s1, _) => s1
  | .error _ => s

/-- True when the call resolved. -/
def isOkE {α : Type} (r : Except Err α) : Bool :=
  match r with
  | .ok _ => true
  | .error _ => false

/-- PostSchema.methods.like (part_001): unconditionally pushes the user
onto likes, increments likesQuantity and refreshes updated. -/
def Post.like (p : Post) (userId now : Nat) : Post :=
  { p with likes := p.likes ++ [userId]
         , likesQuantity := p.likesQuantity + 1
         , updated := now }

/-- PostSchema.methods.unlike (part_001): when the user is found in
likes (indexOf greater than -1) removes that first occurrence and
decrements likesQuantity; either way refreshes updated. -/
def Post.unlike (p : Post) (userId now : Nat) : Post :=
  if p.likes.contains userId then
    { p with likes := p.likes.erase userId
           , likesQuantity := p.likesQuantity - 1
           , updated := now }
  else
    { p with updated := now }

/-- The pre-save hook of the post schema refreshes the updated
timestamp. -/
def presaveHook (p : Post) (now : Nat) : Post :=
  { p with updated := now }

/-- Modelled from the spec: UserSchema.methods.follow (user/user.ts is
absent from src) appends the target to the caller's following list. -/
def MUser.follow (u : MUser) (targetId : Nat) : MUser :=
  { u with following := u.following ++ [targetId] }

/-- Modelled from the spec: UserSchema.methods.unfollow (user/user.ts is
absent from src) removes the target from the caller's following list. -/
def MUser.unfollow (u : MUser) (targetId : Nat) : MUser :=
  { u with following := u.following.erase targetId }

/-- Modelled from the spec: UserSchema.methods.grant (user/user.ts is
absent from src) adds the permission strings with idempotent set
semantics - a permission already held is left alone. -/
def MUser.grant (u : MUser) (ps : List String) : MUser :=
  { u with permissions :=
      ps.foldl (fun acc q => if acc.contains q then acc else acc ++ [q]) u.permissions }

/-- Modelled from the spec: UserSchema.methods.revoke (user/user.ts is
absent from src) removes the listed permission strings. -/
def MUser.revoke (u : MUser) (ps : List String) : MUser :=
  { u with permissions := u.permissions.filter (fun q => !(ps.contains q)) }

/-- Insertion step for sorting posts by creation time descending, the
effect of the sort -created modifier on a find query. -/
def insertByCreatedDesc (p : Post) : List Post → List Post
  | [] => [p]
  | q :: qs => if p.created ≤ q.created then q :: insertByCreatedDesc p qs
               else p :: q :: qs

/-- Sorts posts by creation time descending. -/
def sortByCreatedDesc : List Post → List Post
  | [] => []
  | p :: ps => insertByCreatedDesc p (sortByCreatedDesc ps)

/-- Post.find: a query over the posts collection always resolves to an
array (possibly empty, never null); the Option records that the services
nevertheless guard the result against null. -/
def dbFindPosts (s : Store) (pred : Post → Bool) : Option (List Post) :=
  some (s.posts.filter pred)

namespace UserService

/-- user service getFollowing (part_001 lines 353-364): NotFound when
the user is absent, otherwise the raw following list. -/
def getFollowing (s : Store) (userId : Nat) : Except Err (List Nat) :=
  match findUser s userId with
  | none => .error (.notFound "El usuario no se encuentra")
  | some u => .ok u.following

/-- user service follow (part_001 lines 291-320): both users must
exist; when the target is already in the caller's following list the
call rejects with the domain-rule object, otherwise the caller follows
the target and is saved. -/
def follow (s : Store) (myUserId toFollowUserId : Nat) : Except Err (Store × MUser) :=
  match findUser s myUserId with
  | none => .error (.notFound "El usuario no se encuentra")
  | some myUser =>
    match findUser s toFollowUserId with
    | none => .error (.notFound "El usuario no se encuentra")
    | some otherUser =>
      if myUser.following.contains otherUser.id then
        .error (.domainRule "user-follow" "Ya sigues a este usuario")
      else
        .ok (saveUser s (myUser.follow otherUser.id), otherUser)

/-- user service unfollow (part_001 lines 322-351): both users must
exist; when the target is in the caller's following list it is removed
and the caller saved, otherwise the call rejects with the domain-rule
object. -/
def unfollow (s : Store) (myUserId toUnfollowUserId : Nat) : Except Err (Store × MUser) :=
  match findUser s myUserId with
  | none => .error (.notFound "El usuario no se encuentra")
  | some myUser =>
    match findUser s toUnfollowUserId with
    | none => .error (.notFound "El usuario no se encuentra")
    | some otherUser =>
      if myUser.following.contains otherUser.id then
        .ok (saveUser s (myUser.unfollow otherUser.id), otherUser)
      else
        .error (.domainRule "user-follow" "No sigues a este usuario, no puedes dejar de seguirlo")

/-- user service grant (part_001 lines 221-239): a missing or non-array
permissions argument (modelled by none) rejects with a validation error;
an absent user rejects NotFound; otherwise the schema grant method runs
and the user is saved. -/
def grant (s : Store) (userId : Nat) (permissions : Option (List String)) :
    Except Err (Store × Unit) :=
  match permissions with
  | none => .error (.validation [("permissions", "Invalid value")])
  | some ps =>
    match findUser s userId with
    | none => .error (.notFound "El usuario no se encuentra")
    | some user => .ok (saveUser s (user.grant ps), ())

/-- user service revoke (part_001 lines 241-259): same shape as grant
with the schema revoke method. -/
def revoke (s : Store) (userId : Nat) (permissions : Option (List String)) :
    Except Err (Store × Unit) :=
  match permissions with
  | none => .error (.validation [("permissions", "Invalid value")])
  | some ps =>
    match findUser s userId with
    | none => .error (.notFound "El usuario no se encuentra")
    | some user => .ok (saveUser s (user.revoke ps), ())

end UserService

namespace PostService

/-- post service findMyFeedPosts (part_003 lines 59-71): the following
list of the caller (NotFound if the caller is absent), then the enabled
posts of followed users sorted by creation descending; the null guard on
the query result is kept although a find never yields null. -/
def findMyFeedPosts (s : Store) (userId : Nat) : Except Err (List Post) :=
  match UserService.getFollowing s userId with
  | .error e => .error e
  | .ok following =>
    match dbFindPosts s (fun p => following.contains p.user && p.enabled) with
    | none => .error (.notFound "")
    | some posts => .ok (sortByCreatedDesc posts)

/-- post service findPostByLikeAmount (part_003 lines 73-84): enabled
posts whose likesQuantity is at least the threshold, sorted by creation
descending; the null guard on the query result is kept although a find
never yields null. -/
def findPostByLikeAmount (s : Store) (likes : Int) : Except Err (List Post) :=
  match dbFindPosts s (fun p => decide (likes ≤ p.likesQuantity) && p.enabled) with
  | none => .error (.notFound "")
  | some posts => .ok (sortByCreatedDesc posts)

/-- post service deletePost (part_003 lines 161-174): looks up the
enabled post with the given id and owner and clears its enabled flag.
There is no null check, so a missing match raises a TypeError by
assigning the enabled property of null. -/
def deletePost (s : Store) (userId postId now : Nat) : Except Err (Store × Post) :=
  match findPostOwnedEnabled s userId postId with
  | none => .error (.nullAccess "enabled")
  | some post =>
    let saved := presaveHook { post with enabled := false } now
    .ok (savePost s saved, saved)

/-- post service like (part_003 lines 176-194): fetches the enabled
post (a missing post raises a TypeError on reading likes of null), and
toggles: when the caller is in likes the schema unlike method runs,
otherwise the schema like method, then the post is saved. -/
def like (s : Store) (userId postId now : Nat) : Except Err (Store × Post) :=
  match findPostEnabled s postId with
  | none => .error (.nullAccess "likes")
  | some post =>
    let toggled :=
      if post.likes.contains userId then post.unlike userId now
      else post.like userId now
    let saved := presaveHook toggled now
    .ok (savePost s saved, saved)

/-- post service dislike (part_003 lines 196-214): the body is
identical, line for line, to that of like. -/
def dislike (s : Store) (userId postId now : Nat) : Except Err (Store × Post) :=
  match findPostEnabled s postId with
  | none => .error (.nullAccess "likes")
  | some post =>
    let toggled :=
      if post.likes.contains userId then post.unlike userId now
      else post.like userId now
    let saved := presaveHook toggled now
    .ok (savePost s saved, saved)

end PostService

namespace PostServiceSrc

/-- src/src/post/service.ts like (lines 154-172): same toggle as the
part_003 variant but the findOne filter has no enabled condition. -/
def like (s : Store) (userId postId now : Nat) : Except Err (Store × Post) :=
  match findPostById s postId with
  | none => .error (.nullAccess "likes")
  | some post =>
    let toggled :=
      if post.likes.contains userId then post.unlike userId now
      else post.like userId now
    let saved := presaveHook toggled now
    .ok (savePost s saved, saved)

/-- src/src/post/service.ts dislike (lines 174-192): identical, line
for line, to the like of the same file. -/
def dislike (s : Store) (userId postId now : Nat) : Except Err (Store × Post) :=
  match findPostById s postId with
  | none => .error (.nullAccess "likes")
  | some post =>
    let toggled :=
      if post.likes.contains userId then post.unlike userId now
      else post.like userId now
    let saved := presaveHook toggled now
    .ok (savePost s saved, saved)

/-- src/src/post/service.ts deletePost (lines 140-152): Post.deleteOne
physically removes the first document matching id and owner (the soft
delete is commented out in this variant); the call resolves even when
nothing matched. -/
def deletePost (s : Store) (userId postId : Nat) : Except Err (Store × Unit) :=
  .ok ({ s with posts := s.posts.eraseP (fun p => p.id == postId && p.user == userId) }, ())

end PostServiceSrc

/-- The request body of updateBasicInfo; in the source the string
fields are absent or empty interchangeably (both are falsy), so an
absent field is the empty string, and the province id is optional. -/
structure ProfileBody where
  name : String
  phone : String
  email : String
  address : String
  province : Option Nat
  deriving Repr, DecidableEq

/-- Modelled from the spec: the defaults of a fresh Profile document
(profile/schema.ts is absent from src) - empty strings, no province, no
picture, enabled. -/
def emptyProfile : Profile :=
  { id := 0, user := 0, name := "", phone := "", email := "", address := ""
  , province := none, picture := "", enabled := true }

/-- Saving a profile document: an existing id is overwritten in place,
a new document is appended to the collection. -/
def saveProfile (s : Store) (p : Profile) : Store :=
  if s.profiles.any (fun q => q.id == p.id) then
    { s with profiles := s.profiles.map (fun q => if q.id == p.id then p else q) }
  else
    { s with profiles := s.profiles ++ [p] }

namespace ProfileService

/-- profile service findForUser (src/src/profile/service.ts lines
10-15): the enabled profile whose user field matches. -/
def findForUser (s : Store) (userId : Nat) : Option Profile :=
  s.profiles.find? (fun p => p.user == userId && p.enabled)

/-- profile service validateProfile (src/src/profile/service.ts lines
37-73), returning the collected messages: email and name are required
when isNew, the length bounds are 256, 1024, 1024 and 32, and a supplied
province must resolve through provinces.read. -/
def validateProfile (body : ProfileBody) (isNew : Bool) (provs : List Nat) :
    List (String × String) :=
  (if isNew && body.email.length == 0 then
    [("email", "No puede quedar vacío.")] else []) ++
  (if body.email.length > 256 then
    [("email", "Hasta 256 caracteres solamente.")] else []) ++
  (if isNew && body.name.length == 0 then
    [("name", "No puede quedar vacío.")] else []) ++
  (if body.name.length > 1024 then
    [("name", "Hasta 1024 caracteres solamente.")] else []) ++
  (if body.address.length > 1024 then
    [("address", "Hasta 1024 caracteres solamente.")] else []) ++
  (if body.phone.length > 32 then
    [("phone", "Hasta 32 caracteres solamente.")] else []) ++
  (match body.province with
   | some pv => if (provincesRead provs pv).isNone then
       [("province", "No se encuentra.")] else []
   | none => [])

/-- profile service updateBasicInfo (src/src/profile/service.ts lines
74-108): fetches the enabled profile of the user, validates the body
passing the double-negated profile as the isNew flag (the source really
passes the profile's presence, not its absence), creates a fresh profile
keyed to the user when none exists, patches the supplied non-empty
fields, sets the province to the record read for the supplied id (a
TypeError on null when it does not resolve) or clears it when not
supplied, and saves. -/
def updateBasicInfo (s : Store) (userId : Nat) (body : ProfileBody) :
    Except Err (Store × Profile) :=
  let profile? := findForUser s userId
  let msgs := validateProfile body profile?.isSome s.provinces
  if msgs.isEmpty then
    let base :=
      match profile? with
      | some p => p
      | none => { emptyProfile with id := userId, user := userId }
    let p1 := if body.email.length == 0 then base else { base with email := body.email }
    let p2 := if body.name.length == 0 then p1 else { p1 with name := body.name }
    let p3 := if body.address.length == 0 then p2 else { p2 with address := body.address }
    let p4 := if body.phone.length == 0 then p3 else { p3 with phone := body.phone }
    match body.province with
    | some pv =>
      match provincesRead s.provinces pv with
      | none => .error (.nullAccess "_id")
      | some prov =>
        let p5 := { p4 with province := some prov }
        .ok (saveProfile s p5, p5)
    | none =>
      let p5 := { p4 with province := none }
      .ok (saveProfile s p5, p5)
  else
    .error (.validation msgs)

end ProfileService

/-- One like or dislike request: which of the two (identical) endpoints
was called, the calling user, the target post and the call time. -/
structure LikeOp where
  viaDislike : Bool
  uid : Nat
  pid : Nat
  now : Nat
  deriving Repr, DecidableEq

/-- Applies one like or dislike request to the store; a rejected call
(missing post) leaves the store untouched. -/
def stepLikeOp (s : Store) (op : LikeOp) : Store :=
  if op.viaDislike then runStep s (PostService.dislike s op.uid op.pid op.now)
  else runStep s (PostService.like s op.uid op.pid op.now)

/-- Applies a sequence of like and dislike requests. -/
def applyLikeOps (s : Store) (ops : List LikeOp) : Store :=
  ops.foldl stepLikeOp s

/-- The denormalized-counter invariant: every stored post's
likesQuantity equals the length of its likes list. -/
def likesInv (s : Store) : Prop :=
  ∀ p ∈ s.posts, p.likesQuantity = (p.likes.length : Int)

instance : DecidablePred likesInv := fun s =>
  inferInstanceAs (Decidable (∀ p ∈ s.posts, p.likesQuantity = (p.likes.length : Int)))

theorem mem_insertByCreatedDesc {p q : Post} {l : List Post} :
    q ∈ insertByCreatedDesc p l ↔ q = p ∨ q ∈ l := by
  induction l with
  | nil => simp [insertByCreatedDesc]
  | cons r rs ih =>
    simp only [insertByCreatedDesc]
    split
    · rw [List.mem_cons, ih, List.mem_cons]
      tauto
    · simp only [List.mem_cons]

theorem mem_sortByCreatedDesc {q : Post} {l : List Post} :
    q ∈ sortByCreatedDesc l ↔ q ∈ l := by
  induction l with
  | nil => simp [sortByCreatedDesc]
  | cons r rs ih =>
    simp only [sortByCreatedDesc]
    rw [mem_insertByCreatedDesc]
    simp [ih]

theorem pairwise_insertByCreatedDesc {p : Post} {l : List Post}
    (h : l.Pairwise (fun a b => b.created ≤ a.created)) :
    (insertByCreatedDesc p l).Pairwise (fun a b => b.created ≤ a.created) := by
  induction l with
  | nil => simp [insertByCreatedDesc]
  | cons r rs ih =>
    simp only [insertByCreatedDesc]
    rcases List.pairwise_cons.mp h with ⟨hr, hrs⟩
    split
    · rename_i hle
      refine List.pairwise_cons.mpr ⟨?_, ih hrs⟩
      intro x hx
      rcases mem_insertByCreatedDesc.mp hx with rfl | hx
      · exact hle
      · exact hr x hx
    · rename_i hgt
      refine List.pairwise_cons.mpr ⟨?_, h⟩
      intro x hx
      rcases List.mem_cons.mp hx with rfl | hx
      · omega
      · have := hr x hx
        omega

theorem pairwise_sortByCreatedDesc (l : List Post) :
    (sortByCreatedDesc l).Pairwise (fun a b => b.created ≤ a.created) := by
  induction l with
  | nil => simp [sortByCreatedDesc]
  | cons r rs ih => exact pairwise_insertByCreatedDesc ih

theorem find?_post_save {pid : Nat} {post p : Post} :
    ∀ l : List Post,
      l.find? (fun q => q.id == pid && q.enabled) = some post →
      p.id = pid → p.enabled = true →
      (l.map (fun q => if q.id == p.id then p else q)).find?
          (fun q => q.id == pid && q.enabled) = some p := by
  intro l
  induction l with
  | nil => intro h; simp [List.find?] at h
  | cons r rs ih =>
    intro hfind hid hen
    by_cases hr : r.id = p.id
    · simp only [List.map_cons]
      rw [if_pos (by simp [hr])]
      have : (p.id == pid && p.enabled) = true := by simp [hid, hen]
      simp [List.find?, this]
    · simp only [List.map_cons]
      rw [if_neg (by simp [hr])]
      have hpred : (r.id == pid && r.enabled) = false := by
        have : r.id ≠ pid := by rw [hid] at hr; exact hr
        simp [this]
      rw [List.find?_cons_of_neg _ (by simp [hpred])]
      rw [List.find?_cons_of_neg _ (by simp [hpred])] at hfind
      exact ih hfind hid hen

theorem findPostEnabled_savePost {s : Store} {pid : Nat} {post p : Post}
    (hfind : findPostEnabled s pid = some post)
    (hid : p.id = pid) (hen : p.enabled = true) :
    findPostEnabled (savePost s p) pid = some p :=
  find?_post_save s.posts hfind hid hen

theorem find?_user_save {uid : Nat} {u0 u : MUser} :
    ∀ l : List MUser,
      l.find? (fun v => v.id == uid) = some u0 →
      u.id = uid →
      (l.map (fun v => if v.id == u.id then u else v)).find?
          (fun v => v.id == uid) = some u := by
  intro l
  induction l with
  | nil => intro h; simp [List.find?] at h
  | cons r rs ih =>
    intro hfind hid
    by_cases hr : r.id = u.id
    · simp only [List.map_cons]
      rw [if_pos (by simp [hr])]
      simp [List.find?, hid]
    · simp only [List.map_cons]
      rw [if_neg (by simp [hr])]
      have : r.id ≠ uid := by rw [hid] at hr; exact hr
      rw [List.find?_cons_of_neg _ (by simp [this])]
      rw [List.find?_cons_of_neg _ (by simp [this])] at hfind
      exact ih hfind hid

theorem findUser_saveUser {s : Store} {uid : Nat} {u0 u : MUser}
    (hfind : findUser s uid = some u0) (hid : u.id = uid) :
    findUser (saveUser s u) uid = some u :=
  find?_user_save s.users hfind hid

theorem find?_user_save_ne {tid : Nat} {u : MUser} (hne : u.id ≠ tid) :
    ∀ l : List MUser,
      (l.map (fun v => if v.id == u.id then u else v)).find?
          (fun v => v.id == tid) = l.find? (fun v => v.id == tid) := by
  intro l
  induction l with
  | nil => simp
  | cons r rs ih =>
    by_cases hr : r.id = u.id
    · simp only [List.map_cons]
      rw [if_pos (by simp [hr])]
      have h1 : (u.id == tid) = false := by simp [hne]
      have h2 : (r.id == tid) = false := by simp [hr, hne]
      rw [List.find?_cons_of_neg _ (by simp [h1]),
          List.find?_cons_of_neg _ (by simp [h2])]
      exact ih
    · simp only [List.map_cons]
      rw [if_neg (by simp [hr])]
      by_cases hrt : r.id = tid
      · rw [List.find?_cons_of_pos _ (by simp [hrt]),
            List.find?_cons_of_pos _ (by simp [hrt])]
      · rw [List.find?_cons_of_neg _ (by simp [hrt]),
            List.find?_cons_of_neg _ (by simp [hrt])]
        exact ih

theorem findUser_saveUser_ne {s : Store} {tid : Nat} {u : MUser}
    (hne : u.id ≠ tid) : findUser (saveUser s u) tid = findUser s tid :=
  find?_user_save_ne hne s.users

theorem presaveHook_likes (p : Post) (now : Nat) : (presaveHook p now).likes = p.likes :=
  rfl

theorem presaveHook_likesQuantity (p : Post) (now : Nat) :
    (presaveHook p now).likesQuantity = p.likesQuantity :=
  rfl

theorem toggled_post_inv {p : Post} {uid now : Nat}
    (h : p.likesQuantity = (p.likes.length : Int)) :
    (presaveHook (if p.likes.contains uid then p.unlike uid now
                  else p.like uid now) now).likesQuantity
      = ((presaveHook (if p.likes.contains uid then p.unlike uid now
                       else p.like uid now) now).likes.length : Int) := by
  rw [presaveHook_likes, presaveHook_likesQuantity]
  by_cases hc : p.likes.contains uid = true
  · have hmem : uid ∈ p.likes := List.elem_iff.mp hc
    have hlen : (p.likes.erase uid).length = p.likes.length - 1 :=
      List.length_erase_of_mem hmem
    have hpos : 0 < p.likes.length := List.length_pos_of_mem hmem
    rw [if_pos hc]
    unfold Post.unlike
    rw [if_pos hc]
    simp only [hlen]
    omega
  · rw [if_neg hc]
    unfold Post.like
    simp only [List.length_append, List.length_cons, List.length_nil]
    push_cast
    omega

theorem like_eq_of_find {s : Store} {uid pid now : Nat} {post : Post}
    (hf : findPostEnabled s pid = some post) :
    PostService.like s uid pid now =
      .ok (savePost s (presaveHook (if post.likes.contains uid then post.unlike uid now
              else post.like uid now) now),
           presaveHook (if post.likes.contains uid then post.unlike uid now
              else post.like uid now) now) := by
  unfold PostService.like
  rw [hf]

theorem like_eq_of_find_none {s : Store} {uid pid now : Nat}
    (hf : findPostEnabled s pid = none) :
    PostService.like s uid pid now = .error (.nullAccess "likes") := by
  unfold PostService.like
  rw [hf]

theorem stepLikeOp_eq (s : Store) (op : LikeOp) :
    stepLikeOp s op = runStep s (PostService.like s op.uid op.pid op.now) := by
  cases h : op.viaDislike <;> simp only [stepLikeOp, h, if_true, if_false] <;> rfl

theorem map_replace_post_inv {posts : List Post} {p : Post}
    (h : ∀ q ∈ posts, q.likesQuantity = (q.likes.length : Int))
    (hp : p.likesQuantity = (p.likes.length : Int)) :
    ∀ q ∈ posts.map (fun r => if r.id == p.id then p else r),
      q.likesQuantity = (q.likes.length : Int) := by
  intro q hq
  rcases List.mem_map.mp hq with ⟨r, hr, hqr⟩
  cases hrid : (r.id == p.id) with
  | true => rw [hrid] at hqr; simp only [if_true] at hqr; exact hqr ▸ hp
  | false => rw [hrid] at hqr; simp only [Bool.false_eq_true, if_false] at hqr
             exact hqr ▸ h r hr

theorem stepLikeOp_preserves_inv (s : Store) (op : LikeOp) (h : likesInv s) :
    likesInv (stepLikeOp s op) := by
  rw [stepLikeOp_eq]
  cases hf : findPostEnabled s op.pid with
  | none => rw [like_eq_of_find_none hf]; exact h
  | some post =>
    rw [like_eq_of_find hf]
    simp only [runStep, savePost]
    have hpost : post ∈ s.posts := List.mem_of_find?_eq_some hf
    exact map_replace_post_inv h (toggled_post_inv (h post hpost))

/-- C1: starting from any store in which every post's likesQuantity
equals the size of its likes list, any sequence of like and dislike
calls (each by any user on any post) preserves that equality in every
stored post, hence it holds before and after each operation of the
sequence. -/
theorem likes_counter_matches_likes_set (s : Store) (ops : List LikeOp)
    (h : likesInv s) : likesInv (applyLikeOps s ops) := by
  induction ops generalizing s with
  | nil => exact h
  | cons op rest ih =>
    exact ih (stepLikeOp s op) (stepLikeOp_preserves_inv s op h)

/-- Witness for C1 at a concrete store and operation sequence. -/
theorem likes_counter_matches_likes_set_witness :
    likesInv ⟨[], [⟨1, "t", "d", "", [7], 1, [], 0, 10, 10, true⟩], [], []⟩ ∧
    likesInv (applyLikeOps ⟨[], [⟨1, "t", "d", "", [7], 1, [], 0, 10, 10, true⟩], [], []⟩
      [⟨false, 7, 1, 11⟩, ⟨true, 8, 1, 12⟩, ⟨false, 8, 1, 13⟩, ⟨true, 9, 2, 14⟩]) :=
  ⟨by decide, likes_counter_matches_likes_set _ _ (by decide)⟩

/-- C2: like and dislike denote the same function, in the part_003 post
service and in the src/src/post/service.ts variant alike: on every
store, user, post and time they return identical results and identical
resulting states. -/
theorem like_dislike_same_function :
    (∀ (s : Store) (userId postId now : Nat),
        PostService.dislike s userId postId now
          = PostService.like s userId postId now) ∧
    (∀ (s : Store) (userId postId now : Nat),
        PostServiceSrc.dislike s userId postId now
          = PostServiceSrc.like s userId postId now) :=
  ⟨fun _ _ _ _ => rfl, fun _ _ _ _ => rfl⟩


instance instDecEqExcept {ε α : Type} [DecidableEq ε] [DecidableEq α] :
    DecidableEq (Except ε α) := fun a b =>
  match a, b with
  | .ok x, .ok y =>
    if h : x = y then .isTrue (by rw [h]) else .isFalse (fun hh => h (by injection hh))
  | .error x, .error y =>
    if h : x = y then .isTrue (by rw [h]) else .isFalse (fun hh => h (by injection hh))
  | .ok _, .error _ => .isFalse (fun hh => Except.noConfusion hh)
  | .error _, .ok _ => .isFalse (fun hh => Except.noConfusion hh)

theorem findUser_id {s : Store} {uid : Nat} {u : MUser}
    (h : findUser s uid = some u) : u.id = uid := by
  unfold findUser at h
  have h2 := List.find?_some h
  simpa using h2

theorem findPostEnabled_facts {s : Store} {pid : Nat} {p : Post}
    (h : findPostEnabled s pid = some p) : p.id = pid ∧ p.enabled = true := by
  unfold findPostEnabled at h
  have h2 := List.find?_some h
  simpa using h2

/-- C3: when a first follow call succeeds, repeating it on the new
state is rejected with the already-following domain-rule error while the
following list returned by getFollowing contains the target exactly
once; and an unfollow on the original state, where no follow has
happened, is rejected with the not-following domain-rule error and
leaves the store untouched. -/
theorem follow_unfollow_non_idempotent (s s1 : Store) (uid tid : Nat) (t : MUser)
    (hsucc : UserService.follow s uid tid = .ok (s1, t)) :
    UserService.follow s1 uid tid
        = .error (.domainRule "user-follow" "Ya sigues a este usuario") ∧
    (∃ l, UserService.getFollowing s1 uid = .ok l ∧ l.count tid = 1) ∧
    UserService.unfollow s uid tid
        = .error (.domainRule "user-follow"
            "No sigues a este usuario, no puedes dejar de seguirlo") ∧
    runStep s (UserService.unfollow s uid tid) = s := by
  unfold UserService.follow at hsucc
  split at hsucc
  · exact absurd hsucc (by simp)
  rename_i myUser hm
  split at hsucc
  · exact absurd hsucc (by simp)
  rename_i otherUser ho
  split at hsucc
  · exact absurd hsucc (by simp)
  rename_i hcnot
  have hc : myUser.following.contains otherUser.id = false := by
    revert hcnot
    cases myUser.following.contains otherUser.id <;> simp
  simp only [Except.ok.injEq, Prod.mk.injEq] at hsucc
  obtain ⟨hs1, ht⟩ := hsucc
  have hmid : myUser.id = uid := findUser_id hm
  have hoid : otherUser.id = tid := findUser_id ho
  have hnotin : tid ∉ myUser.following := by
    intro hmem
    have : myUser.following.contains otherUser.id = true := by
      rw [hoid]; exact List.elem_iff.mpr hmem
    rw [this] at hc
    cases hc
  subst hs1
  have hfind1 : findUser (saveUser s (myUser.follow otherUser.id)) uid
      = some (myUser.follow otherUser.id) :=
    findUser_saveUser hm hmid
  have hmemnew : otherUser.id ∈ (myUser.follow otherUser.id).following := by
    show otherUser.id ∈ myUser.following ++ [otherUser.id]
    exact List.mem_append_right _ (List.mem_singleton.mpr rfl)
  have hnin2 : otherUser.id ∉ myUser.following := by
    rw [hoid]; exact hnotin
  have hun : UserService.unfollow s uid tid
      = .error (.domainRule "user-follow"
          "No sigues a este usuario, no puedes dejar de seguirlo") := by
    unfold UserService.unfollow
    simp [hm, ho, hc, hnin2]
  refine ⟨?_, ?_, hun, by rw [hun]; rfl⟩
  · unfold UserService.follow
    by_cases huid : uid = tid
    · subst huid
      have hidf : (myUser.follow otherUser.id).id = otherUser.id := by
        show myUser.id = otherUser.id
        rw [hmid, hoid]
      have hcontains : (myUser.follow otherUser.id).following.contains
          (myUser.follow otherUser.id).id = true := by
        rw [hidf]
        exact List.elem_iff.mpr hmemnew
      have hmem5 : (myUser.follow otherUser.id).id
          ∈ (myUser.follow otherUser.id).following := by
        rw [hidf]; exact hmemnew
      simp [hfind1, hcontains, hmem5]
    · have hne : (myUser.follow otherUser.id).id ≠ tid := by
        have hidf : (myUser.follow otherUser.id).id = uid := hmid
        rw [hidf]; exact huid
      have hcontains : (myUser.follow otherUser.id).following.contains
          otherUser.id = true :=
        List.elem_iff.mpr hmemnew
      simp [hfind1, findUser_saveUser_ne hne, ho, hcontains, hmemnew]
  · refine ⟨(myUser.follow otherUser.id).following, ?_, ?_⟩
    · unfold UserService.getFollowing
      simp [hfind1]
    · show (myUser.following ++ [otherUser.id]).count tid = 1
      rw [hoid, List.count_append, List.count_eq_zero.mpr hnotin]
      simp

/-- Witness for C3 at a concrete two-user store. -/
theorem follow_unfollow_non_idempotent_witness :
    UserService.follow ⟨[⟨0, "a", "la", ["user"], true, []⟩,
        ⟨1, "b", "lb", ["user"], true, []⟩], [], [], []⟩ 0 1
      = .ok (⟨[⟨0, "a", "la", ["user"], true, [1]⟩,
          ⟨1, "b", "lb", ["user"], true, []⟩], [], [], []⟩,
          ⟨1, "b", "lb", ["user"], true, []⟩) ∧
    (UserService.follow ⟨[⟨0, "a", "la", ["user"], true, [1]⟩,
        ⟨1, "b", "lb", ["user"], true, []⟩], [], [], []⟩ 0 1
        = .error (.domainRule "user-follow" "Ya sigues a este usuario") ∧
     (∃ l, UserService.getFollowing ⟨[⟨0, "a", "la", ["user"], true, [1]⟩,
          ⟨1, "b", "lb", ["user"], true, []⟩], [], [], []⟩ 0 = .ok l
        ∧ l.count 1 = 1) ∧
     UserService.unfollow ⟨[⟨0, "a", "la", ["user"], true, []⟩,
          ⟨1, "b", "lb", ["user"], true, []⟩], [], [], []⟩ 0 1
        = .error (.domainRule "user-follow"
            "No sigues a este usuario, no puedes dejar de seguirlo") ∧
     runStep ⟨[⟨0, "a", "la", ["user"], true, []⟩,
          ⟨1, "b", "lb", ["user"], true, []⟩], [], [], []⟩
        (UserService.unfollow ⟨[⟨0, "a", "la", ["user"], true, []⟩,
          ⟨1, "b", "lb", ["user"], true, []⟩], [], [], []⟩ 0 1)
        = ⟨[⟨0, "a", "la", ["user"], true, []⟩,
          ⟨1, "b", "lb", ["user"], true, []⟩], [], [], []⟩) :=
  ⟨by decide,
   follow_unfollow_non_idempotent
     ⟨[⟨0, "a", "la", ["user"], true, []⟩, ⟨1, "b", "lb", ["user"], true, []⟩], [], [], []⟩
     ⟨[⟨0, "a", "la", ["user"], true, [1]⟩, ⟨1, "b", "lb", ["user"], true, []⟩], [], [], []⟩
     0 1 ⟨1, "b", "lb", ["user"], true, []⟩ (by decide)⟩

theorem findMyFeedPosts_eq {s : Store} {uid : Nat} {u : MUser}
    (h : findUser s uid = some u) :
    PostService.findMyFeedPosts s uid =
      .ok (sortByCreatedDesc (s.posts.filter
        (fun p => u.following.contains p.user && p.enabled))) := by
  unfold PostService.findMyFeedPosts UserService.getFollowing dbFindPosts
  simp [h]

/-- C4 (amended): for an existing user the feed is exactly the enabled
posts whose owner is in the user's following list, ordered by creation
time descending; and it contains no post owned by the caller provided
the caller is not in its own following list (the follow service does not
prevent following oneself). -/
theorem findMyFeedPosts_spec (s : Store) (uid : Nat) (u : MUser)
    (h : findUser s uid = some u) :
    ∃ feed, PostService.findMyFeedPosts s uid = .ok feed ∧
      (∀ p, p ∈ feed ↔ p ∈ s.posts ∧ p.enabled = true ∧ p.user ∈ u.following) ∧
      feed.Pairwise (fun a b => b.created ≤ a.created) ∧
      (uid ∉ u.following → ∀ p ∈ feed, p.user ≠ uid) := by
  have hmem : ∀ p, p ∈ sortByCreatedDesc (s.posts.filter
      (fun p => u.following.contains p.user && p.enabled))
      ↔ p ∈ s.posts ∧ p.enabled = true ∧ p.user ∈ u.following := by
    intro p
    rw [mem_sortByCreatedDesc, List.mem_filter]
    constructor
    · rintro ⟨hp, hpred⟩
      rw [Bool.and_eq_true] at hpred
      exact ⟨hp, hpred.2, List.elem_iff.mp hpred.1⟩
    · rintro ⟨hp, hen, hf⟩
      refine ⟨hp, ?_⟩
      rw [Bool.and_eq_true]
      exact ⟨List.elem_iff.mpr hf, hen⟩
  refine ⟨_, findMyFeedPosts_eq h, hmem, pairwise_sortByCreatedDesc _, ?_⟩
  intro hns p hp hpu
  have := ((hmem p).mp hp).2.2
  rw [hpu] at this
  exact hns this

/-- Witness for C4 at a concrete store: one followed author with one
enabled post, one disabled post and one post by a stranger. -/
theorem findMyFeedPosts_spec_witness :
    findUser ⟨[⟨0, "a", "la", ["user"], true, [3]⟩],
        [⟨1, "t1", "d", "", [], 0, [], 3, 5, 5, true⟩,
         ⟨2, "t2", "d", "", [], 0, [], 3, 6, 6, false⟩,
         ⟨4, "t4", "d", "", [], 0, [], 9, 7, 7, true⟩], [], []⟩ 0
      = some ⟨0, "a", "la", ["user"], true, [3]⟩ ∧
    (∃ feed, PostService.findMyFeedPosts ⟨[⟨0, "a", "la", ["user"], true, [3]⟩],
        [⟨1, "t1", "d", "", [], 0, [], 3, 5, 5, true⟩,
         ⟨2, "t2", "d", "", [], 0, [], 3, 6, 6, false⟩,
         ⟨4, "t4", "d", "", [], 0, [], 9, 7, 7, true⟩], [], []⟩ 0 = .ok feed ∧
      (∀ p, p ∈ feed ↔ p ∈ (⟨[⟨0, "a", "la", ["user"], true, [3]⟩],
        [⟨1, "t1", "d", "", [], 0, [], 3, 5, 5, true⟩,
         ⟨2, "t2", "d", "", [], 0, [], 3, 6, 6, false⟩,
         ⟨4, "t4", "d", "", [], 0, [], 9, 7, 7, true⟩], [], []⟩ : Store).posts
          ∧ p.enabled = true ∧ p.user ∈ [3]) ∧
      feed.Pairwise (fun a b => b.created ≤ a.created) ∧
      (0 ∉ ([3] : List Nat) → ∀ p ∈ feed, p.user ≠ 0)) :=
  ⟨by decide,
   findMyFeedPosts_spec ⟨[⟨0, "a", "la", ["user"], true, [3]⟩],
        [⟨1, "t1", "d", "", [], 0, [], 3, 5, 5, true⟩,
         ⟨2, "t2", "d", "", [], 0, [], 3, 6, 6, false⟩,
         ⟨4, "t4", "d", "", [], 0, [], 9, 7, 7, true⟩], [], []⟩ 0
     ⟨0, "a", "la", ["user"], true, [3]⟩ (by decide)⟩

/-- The successful result of a feed query, for evaluating the service
at concrete inputs. -/
def okPosts (r : Except Err (List Post)) : List Post :=
  match r with
  | .ok l => l
  | .error _ => []

/-- Counterexample to C4 as stated: nothing stops a user from following
itself, and after follow(0, 0) succeeds the feed of user 0 contains a
post owned by user 0. -/
theorem findMyFeedPosts_own_post_counterexample :
    isOkE (UserService.follow ⟨[⟨0, "a", "la", ["user"], true, []⟩],
        [⟨1, "t", "d", "", [], 0, [], 0, 5, 5, true⟩], [], []⟩ 0 0) = true ∧
    (okPosts (PostService.findMyFeedPosts
        (runStep ⟨[⟨0, "a", "la", ["user"], true, []⟩,
          ⟨99, "x", "lx", ["user"], true, []⟩],
          [⟨1, "t", "d", "", [], 0, [], 0, 5, 5, true⟩], [], []⟩
          (UserService.follow ⟨[⟨0, "a", "la", ["user"], true, []⟩,
            ⟨99, "x", "lx", ["user"], true, []⟩],
            [⟨1, "t", "d", "", [], 0, [], 0, 5, 5, true⟩], [], []⟩ 0 0)) 0)).any
      (fun p => p.user == 0) = true := by
  constructor
  · decide
  · decide

/-- C5: evaluating deletePost at a store with no matching enabled post:
the part_003 service rejects with the TypeError of assigning a property
of null, not with NotFound; on a matching post it keeps the record in
the store with only enabled cleared and updated refreshed; and the
src/src/post/service.ts variant physically removes the record via
deleteOne, resolving even on no match. -/
theorem deletePost_notfound_and_softdelete_divergence :
    PostService.deletePost ⟨[], [], [], []⟩ 7 1 9 = .error (.nullAccess "enabled") ∧
    (∀ msg, PostService.deletePost ⟨[], [], [], []⟩ 7 1 9 ≠ .error (.notFound msg)) ∧
    (runStep ⟨[], [⟨1, "t", "d", "", [], 0, [], 0, 5, 5, true⟩], [], []⟩
        (PostService.deletePost ⟨[], [⟨1, "t", "d", "", [], 0, [], 0, 5, 5, true⟩],
          [], []⟩ 0 1 9)).posts
      = [⟨1, "t", "d", "", [], 0, [], 0, 9, 5, false⟩] ∧
    PostServiceSrc.deletePost ⟨[], [⟨1, "t", "d", "", [], 0, [], 0, 5, 5, true⟩],
        [], []⟩ 0 1
      = .ok (⟨[], [], [], []⟩, ()) := by
  refine ⟨by decide, ?_, by decide, by decide⟩
  intro msg h
  rw [(by decide : PostService.deletePost (⟨[], [], [], []⟩ : Store) 7 1 9
      = .error (.nullAccess "enabled"))] at h
  simp at h

/-- C8: evaluating updateBasicInfo: with no existing profile a body
with empty email and name is accepted (the profile is created), while
with an existing enabled profile a body omitting the email is rejected
with the required-email validation error - the opposite of requiring
email and name exactly on creation, because the source passes the
profile's presence instead of its absence as the isNew flag. -/
theorem updateBasicInfo_required_on_creation_inverted :
    isOkE (ProfileService.updateBasicInfo ⟨[], [], [], []⟩ 0
        ⟨"", "", "", "", none⟩) = true ∧
    ProfileService.updateBasicInfo
        ⟨[], [], [], [⟨0, 0, "n", "", "e", "", none, "", true⟩]⟩ 0
        ⟨"x", "", "", "", none⟩
      = .error (.validation [("email", "No puede quedar vacío.")]) := by
  exact ⟨by decide, by decide⟩

/-- C7: an updateBasicInfo call whose body carries a province id that
does not resolve to a province record is rejected with a validation
error naming the province field, and the store is unchanged. -/
theorem updateBasicInfo_unknown_province (s : Store) (uid : Nat)
    (body : ProfileBody) (pv : Nat)
    (hpv : body.province = some pv)
    (habs : provincesRead s.provinces pv = none) :
    (∃ msgs, ProfileService.updateBasicInfo s uid body = .error (.validation msgs) ∧
        ("province", "No se encuentra.") ∈ msgs) ∧
    runStep s (ProfileService.updateBasicInfo s uid body) = s := by
  have hmsg : ("province", "No se encuentra.")
      ∈ ProfileService.validateProfile body
          (ProfileService.findForUser s uid).isSome s.provinces := by
    unfold ProfileService.validateProfile
    simp [hpv, habs]
  have hne : ¬ (ProfileService.validateProfile body
      (ProfileService.findForUser s uid).isSome s.provinces).isEmpty = true := by
    intro hemp
    rw [List.isEmpty_iff] at hemp
    rw [hemp] at hmsg
    exact absurd hmsg (List.not_mem_nil _)
  have heq : ProfileService.updateBasicInfo s uid body
      = .error (.validation (ProfileService.validateProfile body
          (ProfileService.findForUser s uid).isSome s.provinces)) := by
    unfold ProfileService.updateBasicInfo
    rw [if_neg hne]
  exact ⟨⟨_, heq, hmsg⟩, by rw [heq]; rfl⟩

/-- Witness for C7: a body naming province 5 over a store with no
provinces. -/
theorem updateBasicInfo_unknown_province_witness :
    (⟨"x", "", "e", "", some 5⟩ : ProfileBody).province = some 5 ∧
    provincesRead (⟨[], [], [], []⟩ : Store).provinces 5 = none ∧
    ((∃ msgs, ProfileService.updateBasicInfo ⟨[], [], [], []⟩ 0
          ⟨"x", "", "e", "", some 5⟩ = .error (.validation msgs) ∧
        ("province", "No se encuentra.") ∈ msgs) ∧
      runStep ⟨[], [], [], []⟩ (ProfileService.updateBasicInfo ⟨[], [], [], []⟩ 0
          ⟨"x", "", "e", "", some 5⟩) = ⟨[], [], [], []⟩) :=
  ⟨by decide, by decide,
   updateBasicInfo_unknown_province ⟨[], [], [], []⟩ 0 ⟨"x", "", "e", "", some 5⟩ 5
     (by decide) (by decide)⟩

/-- The post after the unlike branch of the toggle. -/
def unlikedPost (p : Post) (uid now : Nat) : Post :=
  { p with likes := p.likes.erase uid,
           likesQuantity := p.likesQuantity - 1, updated := now }

/-- The post after the like branch of the toggle. -/
def likedPost (p : Post) (uid now : Nat) : Post :=
  { p with likes := p.likes ++ [uid],
           likesQuantity := p.likesQuantity + 1, updated := now }

theorem toggled_eq_of_contains {p : Post} {uid now : Nat}
    (hc : p.likes.contains uid = true) :
    presaveHook (if p.likes.contains uid then p.unlike uid now else p.like uid now) now
      = unlikedPost p uid now := by
  rw [if_pos hc]
  unfold Post.unlike
  rw [if_pos hc]
  rfl

theorem toggled_eq_of_not_contains {p : Post} {uid now : Nat}
    (hc : p.likes.contains uid = false) :
    presaveHook (if p.likes.contains uid then p.unlike uid now else p.like uid now) now
      = likedPost p uid now := by
  rw [if_neg (fun h => Bool.false_ne_true (hc ▸ h))]
  rfl

/-- C6: calling like twice in a row on an enabled post (whose likes
list, as in every reachable state, holds the caller at most once)
restores the caller's membership in the likes list and the value of
likesQuantity to what they were before the first call. -/
theorem like_twice_restores (s : Store) (uid pid n1 n2 : Nat) (post : Post)
    (hfind : findPostEnabled s pid = some post)
    (hcount : post.likes.count uid ≤ 1) :
    ∃ p2, findPostEnabled (runStep (runStep s (PostService.like s uid pid n1))
        (PostService.like (runStep s (PostService.like s uid pid n1)) uid pid n2)) pid
        = some p2 ∧
      ((uid ∈ p2.likes) ↔ (uid ∈ post.likes)) ∧
      p2.likesQuantity = post.likesQuantity := by
  obtain ⟨hpid, hen⟩ := findPostEnabled_facts hfind
  by_cases hc : post.likes.contains uid = true
  · -- the caller had liked the post: unlike then like
    have hmem : uid ∈ post.likes := List.elem_iff.mp hc
    have hlike1 : PostService.like s uid pid n1
        = .ok (savePost s (unlikedPost post uid n1), unlikedPost post uid n1) := by
      rw [like_eq_of_find hfind, toggled_eq_of_contains hc]
    have hs1 : runStep s (PostService.like s uid pid n1)
        = savePost s (unlikedPost post uid n1) := by
      rw [hlike1]
      rfl
    have hfind1 : findPostEnabled (savePost s (unlikedPost post uid n1)) pid
        = some (unlikedPost post uid n1) :=
      findPostEnabled_savePost hfind hpid hen
    have hcnt0 : (post.likes.erase uid).count uid = 0 := by
      rw [List.count_erase_self]
      have hpos : 0 < post.likes.count uid := List.count_pos_iff.mpr hmem
      omega
    have hnot1 : uid ∉ post.likes.erase uid := List.count_eq_zero.mp hcnt0
    have ht1c : (unlikedPost post uid n1).likes.contains uid = false := by
      show (post.likes.erase uid).contains uid = false
      cases h4 : (post.likes.erase uid).contains uid with
      | false => rfl
      | true => exact absurd (List.elem_iff.mp h4) hnot1
    have hlike2 : PostService.like (savePost s (unlikedPost post uid n1)) uid pid n2
        = .ok (savePost (savePost s (unlikedPost post uid n1))
              (likedPost (unlikedPost post uid n1) uid n2),
            likedPost (unlikedPost post uid n1) uid n2) := by
      rw [like_eq_of_find hfind1, toggled_eq_of_not_contains ht1c]
    refine ⟨likedPost (unlikedPost post uid n1) uid n2, ?_, ?_, ?_⟩
    · rw [hs1, hlike2]
      exact findPostEnabled_savePost hfind1 hpid hen
    · constructor
      · intro _; exact hmem
      · intro _
        exact List.mem_append_right _ (List.mem_singleton.mpr rfl)
    · show post.likesQuantity - 1 + 1 = post.likesQuantity
      omega
  · -- the caller had not liked the post: like then unlike
    have hcf : post.likes.contains uid = false := by
      cases h4 : post.likes.contains uid with
      | false => rfl
      | true => exact absurd h4 hc
    have hnotmem : uid ∉ post.likes := fun hm => hc (List.elem_iff.mpr hm)
    have hlike1 : PostService.like s uid pid n1
        = .ok (savePost s (likedPost post uid n1), likedPost post uid n1) := by
      rw [like_eq_of_find hfind, toggled_eq_of_not_contains hcf]
    have hs1 : runStep s (PostService.like s uid pid n1)
        = savePost s (likedPost post uid n1) := by
      rw [hlike1]
      rfl
    have hfind1 : findPostEnabled (savePost s (likedPost post uid n1)) pid
        = some (likedPost post uid n1) :=
      findPostEnabled_savePost hfind hpid hen
    have ht1c : (likedPost post uid n1).likes.contains uid = true :=
      List.elem_iff.mpr (List.mem_append_right _ (List.mem_singleton.mpr rfl))
    have herase : (post.likes ++ [uid]).erase uid = post.likes := by
      rw [List.erase_append_right _ hnotmem, List.erase_cons_head]
      simp
    have hlike2 : PostService.like (savePost s (likedPost post uid n1)) uid pid n2
        = .ok (savePost (savePost s (likedPost post uid n1))
              (unlikedPost (likedPost post uid n1) uid n2),
            unlikedPost (likedPost post uid n1) uid n2) := by
      rw [like_eq_of_find hfind1, toggled_eq_of_contains ht1c]
    refine ⟨unlikedPost (likedPost post uid n1) uid n2, ?_, ?_, ?_⟩
    · rw [hs1, hlike2]
      exact findPostEnabled_savePost hfind1 hpid hen
    · show uid ∈ (post.likes ++ [uid]).erase uid ↔ uid ∈ post.likes
      rw [herase]
    · show post.likesQuantity + 1 - 1 = post.likesQuantity
      omega

/-- Witness for C6 at a concrete store and post. -/
theorem like_twice_restores_witness :
    findPostEnabled ⟨[], [⟨1, "t", "d", "", [7], 1, [], 0, 5, 5, true⟩], [], []⟩ 1
      = some ⟨1, "t", "d", "", [7], 1, [], 0, 5, 5, true⟩ ∧
    (⟨1, "t", "d", "", [7], 1, [], 0, 5, 5, true⟩ : Post).likes.count 7 ≤ 1 ∧
    (∃ p2, findPostEnabled (runStep (runStep
          ⟨[], [⟨1, "t", "d", "", [7], 1, [], 0, 5, 5, true⟩], [], []⟩
          (PostService.like ⟨[], [⟨1, "t", "d", "", [7], 1, [], 0, 5, 5, true⟩],
            [], []⟩ 7 1 11))
        (PostService.like (runStep
          ⟨[], [⟨1, "t", "d", "", [7], 1, [], 0, 5, 5, true⟩], [], []⟩
          (PostService.like ⟨[], [⟨1, "t", "d", "", [7], 1, [], 0, 5, 5, true⟩],
            [], []⟩ 7 1 11)) 7 1 12)) 1 = some p2 ∧
      ((7 ∈ p2.likes) ↔ (7 ∈ (⟨1, "t", "d", "", [7], 1, [], 0, 5, 5, true⟩ : Post).likes)) ∧
      p2.likesQuantity = (⟨1, "t", "d", "", [7], 1, [], 0, 5, 5, true⟩ : Post).likesQuantity) :=
  ⟨by decide, by decide,
   like_twice_restores ⟨[], [⟨1, "t", "d", "", [7], 1, [], 0, 5, 5, true⟩], [], []⟩
     7 1 11 12 ⟨1, "t", "d", "", [7], 1, [], 0, 5, 5, true⟩ (by decide) (by decide)⟩

theorem mem_grant_fold (l : List String) :
    ∀ (acc : List String) (q : String),
      q ∈ l.foldl (fun acc r => if acc.contains r then acc else acc ++ [r]) acc
        ↔ q ∈ acc ∨ q ∈ l := by
  induction l with
  | nil => intro acc q; simp
  | cons r rs ih =>
    intro acc q
    simp only [List.foldl_cons]
    by_cases hr : acc.contains r = true
    · rw [if_pos hr, ih]
      have hrm : r ∈ acc := List.elem_iff.mp hr
      constructor
      · rintro (h | h)
        · exact Or.inl h
        · exact Or.inr (List.mem_cons_of_mem _ h)
      · rintro (h | h)
        · exact Or.inl h
        · rcases List.mem_cons.mp h with rfl | h
          · exact Or.inl hrm
          · exact Or.inr h
    · rw [if_neg hr, ih]
      simp only [List.mem_append, List.mem_singleton, List.mem_cons]
      tauto

theorem grant_fold_noop (l : List String) :
    ∀ acc : List String, (∀ q ∈ l, q ∈ acc) →
      l.foldl (fun acc r => if acc.contains r then acc else acc ++ [r]) acc = acc := by
  induction l with
  | nil => intro acc _; rfl
  | cons r rs ih =>
    intro acc h
    simp only [List.foldl_cons]
    rw [if_pos (List.elem_iff.mpr (h r (List.mem_cons_self r rs)))]
    exact ih acc (fun q hq => h q (List.mem_cons_of_mem _ hq))

theorem grant_noop (u : MUser) (l : List String)
    (h : ∀ q ∈ l, q ∈ u.permissions) : u.grant l = u := by
  unfold MUser.grant
  rw [grant_fold_noop l u.permissions h]

theorem grant_eq_found {s : Store} {uid : Nat} {u : MUser} {l : List String}
    (hu : findUser s uid = some u) :
    UserService.grant s uid (some l) = .ok (saveUser s (u.grant l), ()) := by
  unfold UserService.grant
  simp [hu]

theorem revoke_eq_found {s : Store} {uid : Nat} {u : MUser} {l : List String}
    (hu : findUser s uid = some u) :
    UserService.revoke s uid (some l) = .ok (saveUser s (u.revoke l), ()) := by
  unfold UserService.revoke
  simp [hu]

theorem grant_eq_absent {s : Store} {uid : Nat} {l : List String}
    (hu : findUser s uid = none) :
    UserService.grant s uid (some l)
      = .error (.notFound "El usuario no se encuentra") := by
  unfold UserService.grant
  simp [hu]

theorem revoke_eq_absent {s : Store} {uid : Nat} {l : List String}
    (hu : findUser s uid = none) :
    UserService.revoke s uid (some l)
      = .error (.notFound "El usuario no se encuentra") := by
  unfold UserService.revoke
  simp [hu]

/-- C9 (amended): grant and revoke reject with a validation error
exactly the missing or non-array permissions argument - the empty array
is accepted and acts as a no-op - reject an absent user with NotFound,
and otherwise apply idempotent set semantics: the granted permissions
are the union, granting already-held permissions changes nothing, and
revoking removes the listed permissions. -/
theorem grant_revoke_semantics (s : Store) (uid uidA : Nat) (u : MUser)
    (l l2 : List String)
    (hu : findUser s uid = some u)
    (habs : findUser s uidA = none)
    (hheld : ∀ q ∈ l2, q ∈ u.permissions) :
    UserService.grant s uid none
        = .error (.validation [("permissions", "Invalid value")]) ∧
    UserService.revoke s uid none
        = .error (.validation [("permissions", "Invalid value")]) ∧
    UserService.grant s uidA (some l)
        = .error (.notFound "El usuario no se encuentra") ∧
    UserService.revoke s uidA (some l)
        = .error (.notFound "El usuario no se encuentra") ∧
    UserService.grant s uid (some l) = .ok (saveUser s (u.grant l), ()) ∧
    (∀ q, q ∈ (u.grant l).permissions ↔ q ∈ u.permissions ∨ q ∈ l) ∧
    u.grant l2 = u ∧
    UserService.revoke s uid (some l) = .ok (saveUser s (u.revoke l), ()) ∧
    (∀ q, q ∈ (u.revoke l).permissions ↔ q ∈ u.permissions ∧ q ∉ l) := by
  refine ⟨rfl, rfl, grant_eq_absent habs, revoke_eq_absent habs,
    grant_eq_found hu, ?_, grant_noop u l2 hheld, revoke_eq_found hu, ?_⟩
  · intro q
    exact mem_grant_fold l u.permissions q
  · intro q
    show q ∈ u.permissions.filter (fun r => !(l.contains r)) ↔ _
    rw [List.mem_filter]
    constructor
    · rintro ⟨h1, h2⟩
      refine ⟨h1, fun hql => ?_⟩
      rw [show l.contains q = true from List.elem_iff.mpr hql] at h2
      simp at h2
    · rintro ⟨h1, h2⟩
      refine ⟨h1, ?_⟩
      cases hq : l.contains q with
      | true => exact absurd (List.elem_iff.mp hq) h2
      | false => rfl

/-- Witness for C9 at a concrete one-user store. -/
theorem grant_revoke_semantics_witness :
    findUser ⟨[⟨0, "a", "la", ["user"], true, []⟩], [], [], []⟩ 0
      = some ⟨0, "a", "la", ["user"], true, []⟩ ∧
    findUser ⟨[⟨0, "a", "la", ["user"], true, []⟩], [], [], []⟩ 5 = none ∧
    (∀ q ∈ ["user"], q ∈ (⟨0, "a", "la", ["user"], true, []⟩ : MUser).permissions) ∧
    (UserService.grant ⟨[⟨0, "a", "la", ["user"], true, []⟩], [], [], []⟩ 0 none
        = .error (.validation [("permissions", "Invalid value")]) ∧
     UserService.revoke ⟨[⟨0, "a", "la", ["user"], true, []⟩], [], [], []⟩ 0 none
        = .error (.validation [("permissions", "Invalid value")]) ∧
     UserService.grant ⟨[⟨0, "a", "la", ["user"], true, []⟩], [], [], []⟩ 5
          (some ["admin", "user"])
        = .error (.notFound "El usuario no se encuentra") ∧
     UserService.revoke ⟨[⟨0, "a", "la", ["user"], true, []⟩], [], [], []⟩ 5
          (some ["admin", "user"])
        = .error (.notFound "El usuario no se encuentra") ∧
     UserService.grant ⟨[⟨0, "a", "la", ["user"], true, []⟩], [], [], []⟩ 0
          (some ["admin", "user"])
        = .ok (saveUser ⟨[⟨0, "a", "la", ["user"], true, []⟩], [], [], []⟩
            ((⟨0, "a", "la", ["user"], true, []⟩ : MUser).grant ["admin", "user"]), ()) ∧
     (∀ q, q ∈ ((⟨0, "a", "la", ["user"], true, []⟩ : MUser).grant
            ["admin", "user"]).permissions
        ↔ q ∈ (⟨0, "a", "la", ["user"], true, []⟩ : MUser).permissions
          ∨ q ∈ ["admin", "user"]) ∧
     (⟨0, "a", "la", ["user"], true, []⟩ : MUser).grant ["user"]
        = ⟨0, "a", "la", ["user"], true, []⟩ ∧
     UserService.revoke ⟨[⟨0, "a", "la", ["user"], true, []⟩], [], [], []⟩ 0
          (some ["admin", "user"])
        = .ok (saveUser ⟨[⟨0, "a", "la", ["user"], true, []⟩], [], [], []⟩
            ((⟨0, "a", "la", ["user"], true, []⟩ : MUser).revoke ["admin", "user"]), ()) ∧
     (∀ q, q ∈ ((⟨0, "a", "la", ["user"], true, []⟩ : MUser).revoke
            ["admin", "user"]).permissions
        ↔ q ∈ (⟨0, "a", "la", ["user"], true, []⟩ : MUser).permissions
          ∧ q ∉ ["admin", "user"])) :=
  ⟨by decide, by decide, by decide,
   grant_revoke_semantics ⟨[⟨0, "a", "la", ["user"], true, []⟩], [], [], []⟩ 0 5
     ⟨0, "a", "la", ["user"], true, []⟩ ["admin", "user"] ["user"]
     (by decide) (by decide) (by decide)⟩

/-- Counterexample to C9 as stated: the empty permissions array is
truthy and an Array instance, so grant with an empty list succeeds as a
no-op instead of failing with a validation error. -/
theorem grant_empty_array_counterexample :
    UserService.grant ⟨[⟨0, "a", "la", ["user"], true, []⟩], [], [], []⟩ 0 (some [])
      = .ok (⟨[⟨0, "a", "la", ["user"], true, []⟩], [], [], []⟩, ()) := by
  decide

theorem findPostByLikeAmount_eq (s : Store) (n : Int) :
    PostService.findPostByLikeAmount s n
      = .ok (sortByCreatedDesc (s.posts.filter
          (fun p => decide (n ≤ p.likesQuantity) && p.enabled))) := by
  unfold PostService.findPostByLikeAmount dbFindPosts
  rfl

/-- C10: the null guard after the post queries is unreachable - a find
yields an array, never null - so on any store where no post matches,
findMyFeedPosts (for an existing caller) and findPostByLikeAmount
resolve with the empty list rather than failing NotFound. -/
theorem feed_and_popular_empty_result_ok (s : Store) (uid : Nat) (u : MUser)
    (threshold : Int)
    (hu : findUser s uid = some u)
    (hfeed : ∀ p ∈ s.posts, ¬(p.enabled = true ∧ p.user ∈ u.following))
    (hpop : ∀ p ∈ s.posts, ¬(p.enabled = true ∧ threshold ≤ p.likesQuantity)) :
    PostService.findMyFeedPosts s uid = .ok [] ∧
    PostService.findPostByLikeAmount s threshold = .ok [] := by
  constructor
  · rw [findMyFeedPosts_eq hu]
    have hnil : s.posts.filter (fun p => u.following.contains p.user && p.enabled)
        = [] := by
      rw [List.filter_eq_nil_iff]
      intro p hp hpred
      rw [Bool.and_eq_true] at hpred
      exact hfeed p hp ⟨hpred.2, List.elem_iff.mp hpred.1⟩
    rw [hnil]
    rfl
  · rw [findPostByLikeAmount_eq]
    have hnil : s.posts.filter
        (fun p => decide (threshold ≤ p.likesQuantity) && p.enabled) = [] := by
      rw [List.filter_eq_nil_iff]
      intro p hp hpred
      rw [Bool.and_eq_true] at hpred
      exact hpop p hp ⟨hpred.2, of_decide_eq_true hpred.1⟩
    rw [hnil]
    rfl

/-- Witness for C10: a caller following user 3 over a store whose only
post is disabled. -/
theorem feed_and_popular_empty_result_ok_witness :
    findUser ⟨[⟨0, "a", "la", ["user"], true, [3]⟩],
        [⟨1, "t", "d", "", [], 0, [], 3, 5, 5, false⟩], [], []⟩ 0
      = some ⟨0, "a", "la", ["user"], true, [3]⟩ ∧
    (∀ p ∈ (⟨[⟨0, "a", "la", ["user"], true, [3]⟩],
        [⟨1, "t", "d", "", [], 0, [], 3, 5, 5, false⟩], [], []⟩ : Store).posts,
      ¬(p.enabled = true ∧ p.user ∈ (⟨0, "a", "la", ["user"], true, [3]⟩ : MUser).following)) ∧
    (∀ p ∈ (⟨[⟨0, "a", "la", ["user"], true, [3]⟩],
        [⟨1, "t", "d", "", [], 0, [], 3, 5, 5, false⟩], [], []⟩ : Store).posts,
      ¬(p.enabled = true ∧ (5 : Int) ≤ p.likesQuantity)) ∧
    (PostService.findMyFeedPosts ⟨[⟨0, "a", "la", ["user"], true, [3]⟩],
        [⟨1, "t", "d", "", [], 0, [], 3, 5, 5, false⟩], [], []⟩ 0 = .ok [] ∧
     PostService.findPostByLikeAmount ⟨[⟨0, "a", "la", ["user"], true, [3]⟩],
        [⟨1, "t", "d", "", [], 0, [], 3, 5, 5, false⟩], [], []⟩ 5 = .ok []) :=
  ⟨by decide, by decide, by decide,
   feed_and_popular_empty_result_ok ⟨[⟨0, "a", "la", ["user"], true, [3]⟩],
       [⟨1, "t", "d", "", [], 0, [], 3, 5, 5, false⟩], [], []⟩ 0
     ⟨0, "a", "la", ["user"], true, [3]⟩ 5 (by decide) (by decide) (by decide)⟩
